import Mathlib

/-!
Verification development for the WFMetadataCollector repository.

The Python sources are shallowly embedded: Python strings are `List Char`,
file contents are `List Nat` (byte values), fallible code returns
`Option`/`Except`, and the mutable Mongo collections are explicit lists of
documents threaded through the store operations.  The `hashlib` digests are
modelled symbolically: an md5 hex digest (32 characters) and a sha256 hex
digest (64 characters) are never equal, which the two constructors of
`Digest` capture.
-/

deriving instance DecidableEq for Except

/-- Model of a Python `str`: a list of characters. -/
abbrev PyStr := List Char

/-- Model of a byte string (file content): a list of byte values. -/
abbrev Content := List Nat

/-- Symbolic model of a `hashlib` hex digest.  `md5hex c` stands for the md5
hex digest of content `c` (32 hex characters) and `sha256hex c` for the
sha256 hex digest (64 hex characters); digests of the two families are never
equal because their lengths differ, which the distinct constructors model. -/
inductive Digest where
  | md5hex (content : Content)
  | sha256hex (content : Content)
deriving DecidableEq

/-! ## Model of file-like buffers and the hash helpers

`src/hashfn.py` and `src/sha256.py` both stream a seekable buffer through a
block hash.  A buffer is its full content plus the current read position;
`read n` returns the next at-most-`n` bytes and advances the position, and
`seek 0` rewinds. -/

/-- A readable, seekable binary buffer: content plus current position. -/
structure PyBuffer where
  content : Content
  pos : Nat
deriving DecidableEq

/-- `buffer.read(n)`: the next at most `n` bytes starting at `pos`. -/
def PyBuffer.readChunk (b : PyBuffer) (n : Nat) : Content :=
  (b.content.drop b.pos).take n

/-- The block-read loop `iter(lambda: buffer.read(BLOCK_SIZE), b"")`:
collects successive chunks until a read returns the empty byte string.
Structural recursion on explicit fuel; `content.length + 1` units of fuel
always suffice because every non-final read advances `pos` by at least 1. -/
def readBlocksAux (content : Content) (blockSize : Nat) : Nat → Nat → List Content
  | _, 0 => []
  | pos, fuel + 1 =>
    let chunk := (content.drop pos).take blockSize
    if chunk.isEmpty then []
    else chunk :: readBlocksAux content blockSize (pos + chunk.length) fuel

/-- All blocks read from a buffer after `seek(pos)`. -/
def readBlocks (content : Content) (blockSize pos : Nat) : List Content :=
  readBlocksAux content blockSize pos (content.length + 1)

/-- Model of a `hashlib.sha256()` object: the bytes fed to `update` so far. -/
structure Sha256State where
  fed : Content
deriving DecidableEq

/-- `sha256.update(block)` appends the block to the fed bytes. -/
def Sha256State.update (s : Sha256State) (block : Content) : Sha256State :=
  ⟨s.fed ++ block⟩

/-- `sha256.hexdigest()`: the sha256 hex digest of the fed bytes. -/
def Sha256State.hexdigest (s : Sha256State) : Digest :=
  Digest.sha256hex s.fed

/-- Model of a `hashlib.md5()` object: the bytes fed to `update` so far. -/
structure Md5State where
  fed : Content
deriving DecidableEq

/-- `md5.update(block)` appends the block to the fed bytes. -/
def Md5State.update (s : Md5State) (block : Content) : Md5State :=
  ⟨s.fed ++ block⟩

/-- `md5.hexdigest()`: the md5 hex digest of the fed bytes. -/
def Md5State.hexdigest (s : Md5State) : Digest :=
  Digest.md5hex s.fed

namespace Hashfn

/-- `src/hashfn.py`, `BLOCK_SIZE = 1 << 16`. -/
def BLOCK_SIZE : Nat := 1 <<< 16

/-- `src/hashfn.py`, `sha256(buffer)`: seek to 0, stream the buffer through
a sha256 object in `BLOCK_SIZE` blocks, return the hex digest. -/
def sha256 (buffer : PyBuffer) : Digest :=
  ((readBlocks buffer.content BLOCK_SIZE 0).foldl Sha256State.update ⟨[]⟩).hexdigest

/-- `src/hashfn.py`, `md5(buffer)`: seek to 0, stream the buffer through an
md5 object in `BLOCK_SIZE` blocks, return the hex digest. -/
def md5 (buffer : PyBuffer) : Digest :=
  ((readBlocks buffer.content BLOCK_SIZE 0).foldl Md5State.update ⟨[]⟩).hexdigest

end Hashfn

namespace Sha256Module

/-- `src/sha256.py`, `sha256(buffer)`: identical streaming loop with the
block size bound locally (`BLOCK_SIZE = 1 << 16` inside the function). -/
def sha256 (buffer : PyBuffer) : Digest :=
  let BLOCK_SIZE := 1 <<< 16
  ((readBlocks buffer.content BLOCK_SIZE 0).foldl Sha256State.update ⟨[]⟩).hexdigest

end Sha256Module

/-! ### Lemmas: the block loop reads exactly the content from the seek point -/

theorem readBlocksAux_flatten (content : Content) (blockSize : Nat) (hbs : 0 < blockSize) :
    ∀ fuel pos, content.length - pos < fuel →
      (readBlocksAux content blockSize pos fuel).flatten = content.drop pos := by
  intro fuel
  induction fuel with
  | zero => intro pos h; omega
  | succ n ih =>
    intro pos h
    by_cases hend : content.length ≤ pos
    · have hdrop : content.drop pos = [] := List.drop_eq_nil_of_le hend
      simp [readBlocksAux, hdrop]
    · push_neg at hend
      have hdropne : content.drop pos ≠ [] := by
        rw [Ne, List.drop_eq_nil_iff]
        omega
      have hchunkne : (content.drop pos).take blockSize ≠ [] := by
        rw [Ne, List.take_eq_nil_iff]
        push_neg
        exact ⟨by omega, hdropne⟩
      have hlen : 0 < ((content.drop pos).take blockSize).length :=
        List.length_pos.mpr hchunkne
      have hle : ((content.drop pos).take blockSize).length ≤ content.length - pos := by
        have h1 := List.length_take blockSize (content.drop pos)
        have h2 := List.length_drop pos content
        omega
      have hrec := ih (pos + ((content.drop pos).take blockSize).length) (by omega)
      rw [readBlocksAux]
      simp only [List.isEmpty_iff, hchunkne, if_neg, not_false_iff, List.flatten_cons, hrec]
      have hdd : content.drop (pos + ((content.drop pos).take blockSize).length)
          = (content.drop pos).drop ((content.drop pos).take blockSize).length := by
        rw [List.drop_drop, Nat.add_comm]
      have hlendrop : (content.drop pos).drop ((content.drop pos).take blockSize).length
          = (content.drop pos).drop blockSize := by
        rw [List.length_take]
        rcases le_or_lt blockSize (content.drop pos).length with hcase | hcase
        · rw [Nat.min_eq_left hcase]
        · rw [Nat.min_eq_right (le_of_lt hcase), List.drop_length,
            List.drop_eq_nil_of_le (le_of_lt hcase)]
      rw [hdd, hlendrop, List.take_append_drop]

theorem readBlocks_flatten (content : Content) (blockSize : Nat) (hbs : 0 < blockSize) :
    (readBlocks content blockSize 0).flatten = content := by
  have h := readBlocksAux_flatten content blockSize hbs (content.length + 1) 0 (by omega)
  simpa [readBlocks] using h

theorem sha256_foldl_fed (blocks : List Content) (acc : Content) :
    (blocks.foldl Sha256State.update ⟨acc⟩).fed = acc ++ blocks.flatten := by
  induction blocks generalizing acc with
  | nil => simp
  | cons b bs ih => simp [Sha256State.update, ih, List.append_assoc]

theorem md5_foldl_fed (blocks : List Content) (acc : Content) :
    (blocks.foldl Md5State.update ⟨acc⟩).fed = acc ++ blocks.flatten := by
  induction blocks generalizing acc with
  | nil => simp
  | cons b bs ih => simp [Md5State.update, ih, List.append_assoc]

theorem hashfn_sha256_eq (b : PyBuffer) : Hashfn.sha256 b = Digest.sha256hex b.content := by
  unfold Hashfn.sha256
  have h := readBlocks_flatten b.content Hashfn.BLOCK_SIZE (by decide)
  simp [Sha256State.hexdigest, sha256_foldl_fed, h]

theorem sha256Module_sha256_eq (b : PyBuffer) :
    Sha256Module.sha256 b = Digest.sha256hex b.content := by
  unfold Sha256Module.sha256
  have h := readBlocks_flatten b.content (1 <<< 16) (by decide)
  simp only [Sha256State.hexdigest, sha256_foldl_fed, h, List.nil_append]

theorem hashfn_md5_eq (b : PyBuffer) : Hashfn.md5 b = Digest.md5hex b.content := by
  unfold Hashfn.md5
  have h := readBlocks_flatten b.content Hashfn.BLOCK_SIZE (by decide)
  simp [Md5State.hexdigest, md5_foldl_fed, h]

/-- C10: the `sha256` function of `src/sha256.py` and the `sha256` function of
`src/hashfn.py` agree on every buffer, and both return the sha256 digest of
the buffer's full content regardless of the buffer's read position at call
time (both seek to 0 and stream 65536-byte blocks). -/
theorem C10_sha256_functions_agree (b : PyBuffer) :
    Sha256Module.sha256 b = Hashfn.sha256 b ∧
    Sha256Module.sha256 b = Digest.sha256hex b.content ∧
    ∀ pos : Nat, Sha256Module.sha256 ⟨b.content, pos⟩ = Sha256Module.sha256 b := by
  refine ⟨?_, ?_, ?_⟩
  · rw [sha256Module_sha256_eq, hashfn_sha256_eq]
  · exact sha256Module_sha256_eq b
  · intro pos; rw [sha256Module_sha256_eq, sha256Module_sha256_eq]

/-! ## Decimal digit strings

`datetime.strptime` with format `"%Y %j"` parses decimal digit fields, and
`strftime` with `%Y` / `%j` renders the year as (at least) 4 digits and the
day-of-year zero-padded to 3 digits.  Digit rendering and parsing are
modelled structurally (fuel-based division) so that everything evaluates by
kernel reduction. -/

/-- Value of a decimal digit character, `none` for a non-digit. -/
def charToDigit? (c : Char) : Option Nat :=
  if '0' ≤ c ∧ c ≤ '9' then some (c.toNat - '0'.toNat) else none

/-- Character for a decimal digit value below 10. -/
def digitChar : Nat → Char
  | 0 => '0' | 1 => '1' | 2 => '2' | 3 => '3' | 4 => '4'
  | 5 => '5' | 6 => '6' | 7 => '7' | 8 => '8' | _ => '9'

/-- Little-endian decimal digits of `n`; `fuel ≥ n` always suffices. -/
def toDigitsLE (fuel : Nat) (n : Nat) : List Nat :=
  match fuel, n with
  | _, 0 => []
  | 0, _ + 1 => []
  | fuel + 1, n + 1 => (n + 1) % 10 :: toDigitsLE fuel ((n + 1) / 10)

/-- Value of a little-endian decimal digit list. -/
def ofDigitsLE : List Nat → Nat
  | [] => 0
  | d :: ds => d + 10 * ofDigitsLE ds

/-- Decimal rendering of `n` (Python `"%d" % n`): most significant first,
`"0"` for zero. -/
def natToChars (n : Nat) : PyStr :=
  if n = 0 then ['0'] else ((toDigitsLE n n).reverse).map digitChar

/-- Zero-pad on the left to width `k` (Python `"%0kd"`). -/
def padZero (k : Nat) (cs : PyStr) : PyStr :=
  List.replicate (k - cs.length) '0' ++ cs

/-- `strftime("%Y")`: the year as an unpadded decimal number (glibc
strftime behaviour; `datetime` years never exceed 4 digits because of the
`MAXYEAR = 9999` cap). -/
def fmtYear (y : Nat) : PyStr := natToChars y

/-- `strftime("%j")`: the day of year, zero-padded to 3 digits. -/
def fmtDoy (d : Nat) : PyStr := padZero 3 (natToChars d)

/-- Digit values of an all-digit string, `none` if any non-digit occurs. -/
def charsToDigits? : PyStr → Option (List Nat)
  | [] => some []
  | c :: cs =>
    match charToDigit? c, charsToDigits? cs with
    | some d, some ds => some (d :: ds)
    | _, _ => none

/-- Parse a non-empty all-digit string to its value (leading zeros allowed,
as in Python `int()` applied to a matched digit group); `none` otherwise. -/
def parseDigits? (cs : PyStr) : Option Nat :=
  match charsToDigits? cs with
  | some ds => if ds.isEmpty then none else some (ofDigitsLE ds.reverse)
  | none => none

/-! ## Python `str.split(".")` and `".".join(...)` -/

/-- Python `s.split(".")`: always returns at least one (possibly empty)
field; a separator at either end yields an empty field there. -/
def splitDot : PyStr → List PyStr
  | [] => [[]]
  | c :: rest =>
    match splitDot rest with
    | [] => []
    | p :: ps => if c = '.' then [] :: p :: ps else (c :: p) :: ps

/-- Python `".".join(parts)`. -/
def intercalateDot : List PyStr → PyStr
  | [] => []
  | [p] => p
  | p :: ps => p ++ '.' :: intercalateDot ps

/-! ## SDSFile (`src/filestream.py`, class `SDSFile`)

An `SDSFile` carries the 7 dot-separated fields of an SDS filename.  The
Python object also stores the raw input string in `self.filename`; for every
successfully constructed object that string equals the dot-join of the 7
fields, so `filename` is modelled as the derived join. -/

structure SDSFile where
  network : PyStr
  station : PyStr
  location : PyStr
  channel : PyStr
  quality : PyStr
  year : PyStr
  day : PyStr
deriving DecidableEq

/-- `SDSFile.filename`: the filename the object was constructed from. -/
def SDSFile.filename (f : SDSFile) : PyStr :=
  intercalateDot [f.network, f.station, f.location, f.channel, f.quality, f.year, f.day]

/-- `SDSFile.__init__` (src/filestream.py lines 31-53): split the filename on
`"."` and unpack into exactly 7 fields; any other field count raises
`Exception("Input filename ... is not a valid SDS filename.")`. -/
def SDSFile.ofFilename (filename : PyStr) : Except PyStr SDSFile :=
  match splitDot filename with
  | [network, station, location, channel, quality, year, day] =>
    .ok ⟨network, station, location, channel, quality, year, day⟩
  | _ =>
    .error (("Input filename ".data ++ filename) ++ " is not a valid SDS filename.".data)

/-! ### Lemmas about `splitDot` -/

theorem splitDot_ne_nil (cs : PyStr) : splitDot cs ≠ [] := by
  induction cs with
  | nil => simp [splitDot]
  | cons c rest ih =>
    rw [splitDot]
    cases h : splitDot rest with
    | nil => exact absurd h ih
    | cons p ps =>
      by_cases hc : c = '.' <;> simp [hc]

theorem splitDot_dotfree (p : PyStr) (h : '.' ∉ p) : splitDot p = [p] := by
  induction p with
  | nil => rfl
  | cons c rest ih =>
    have hc : c ≠ '.' := fun hcc => h (by simp [hcc])
    have hrest : '.' ∉ rest := fun hr => h (List.mem_cons_of_mem _ hr)
    rw [splitDot, ih hrest]
    simp [hc]

theorem splitDot_append_dot (p cs : PyStr) (h : '.' ∉ p) :
    splitDot (p ++ '.' :: cs) = p :: splitDot cs := by
  induction p with
  | nil =>
    rw [List.nil_append, splitDot]
    cases hs : splitDot cs with
    | nil => exact absurd hs (splitDot_ne_nil cs)
    | cons q qs => simp
  | cons c rest ih =>
    have hc : c ≠ '.' := fun hcc => h (by simp [hcc])
    have hrest : '.' ∉ rest := fun hr => h (List.mem_cons_of_mem _ hr)
    rw [List.cons_append, splitDot, ih hrest]
    simp [hc]

/-- Joining 7 dot-free fields and re-splitting recovers the fields; hence
re-parsing a joined filename succeeds and reproduces the record. -/
theorem ofFilename_filename (f : SDSFile)
    (h1 : '.' ∉ f.network) (h2 : '.' ∉ f.station) (h3 : '.' ∉ f.location)
    (h4 : '.' ∉ f.channel) (h5 : '.' ∉ f.quality) (h6 : '.' ∉ f.year)
    (h7 : '.' ∉ f.day) :
    SDSFile.ofFilename f.filename = .ok f := by
  have hsplit : splitDot f.filename
      = [f.network, f.station, f.location, f.channel, f.quality, f.year, f.day] := by
    show splitDot (intercalateDot _) = _
    rw [show intercalateDot
          [f.network, f.station, f.location, f.channel, f.quality, f.year, f.day]
        = f.network ++ '.' ::
            intercalateDot [f.station, f.location, f.channel, f.quality, f.year, f.day]
      from rfl]
    rw [show intercalateDot [f.station, f.location, f.channel, f.quality, f.year, f.day]
        = f.station ++ '.' :: intercalateDot [f.location, f.channel, f.quality, f.year, f.day]
      from rfl]
    rw [show intercalateDot [f.location, f.channel, f.quality, f.year, f.day]
        = f.location ++ '.' :: intercalateDot [f.channel, f.quality, f.year, f.day] from rfl]
    rw [show intercalateDot [f.channel, f.quality, f.year, f.day]
        = f.channel ++ '.' :: intercalateDot [f.quality, f.year, f.day] from rfl]
    rw [show intercalateDot [f.quality, f.year, f.day]
        = f.quality ++ '.' :: intercalateDot [f.year, f.day] from rfl]
    rw [show intercalateDot [f.year, f.day] = f.year ++ '.' :: intercalateDot [f.day] from rfl]
    rw [show intercalateDot [f.day] = f.day from rfl]
    rw [splitDot_append_dot _ _ h1, splitDot_append_dot _ _ h2, splitDot_append_dot _ _ h3,
      splitDot_append_dot _ _ h4, splitDot_append_dot _ _ h5, splitDot_append_dot _ _ h6,
      splitDot_dotfree _ h7]
  rw [SDSFile.ofFilename, hsplit]

theorem length_eq_seven {α : Type} (l : List α) (h : l.length = 7) :
    ∃ a b c d e f g, l = [a, b, c, d, e, f, g] := by
  match l, h with
  | [a, b, c, d, e, f, g], rfl => exact ⟨a, b, c, d, e, f, g, rfl⟩

/-- C6: `SDSFile` construction succeeds exactly when the filename splits on
`"."` into exactly 7 fields, and then the fields are assigned positionally
as network.station.location.channel.quality.year.day; any other field count
fails with the invalid-identifier error. -/
theorem C6_parse_seven_fields (fn : PyStr) :
    ((∃ f : SDSFile, SDSFile.ofFilename fn = .ok f ∧
        splitDot fn = [f.network, f.station, f.location, f.channel, f.quality, f.year, f.day])
      ↔ (splitDot fn).length = 7) ∧
    ((∃ e : PyStr, SDSFile.ofFilename fn = .error e) ↔ (splitDot fn).length ≠ 7) := by
  refine ⟨⟨?_, ?_⟩, ⟨?_, ?_⟩⟩
  · rintro ⟨f, _, hsplit⟩
    rw [hsplit]
    rfl
  · intro hlen
    obtain ⟨a, b, c, d, e, g, h, hsp⟩ := length_eq_seven _ hlen
    refine ⟨⟨a, b, c, d, e, g, h⟩, ?_, hsp⟩
    rw [SDSFile.ofFilename, hsp]
  · rintro ⟨e, herr⟩ hlen
    obtain ⟨a, b, c, d, e', g, h, hsp⟩ := length_eq_seven _ hlen
    rw [SDSFile.ofFilename, hsp] at herr
    exact Except.noConfusion herr
  · intro hlen
    rcases hsp : splitDot fn with
        _ | ⟨a, _ | ⟨b, _ | ⟨c, _ | ⟨d, _ | ⟨e1, _ | ⟨f1, _ | ⟨g1, _ | ⟨h2, t⟩⟩⟩⟩⟩⟩⟩⟩ <;>
      rw [SDSFile.ofFilename, hsp] <;>
      first
        | exact ⟨_, rfl⟩
        | (exfalso; rw [hsp] at hlen; exact hlen rfl)

/-! ## Dates (`SDSFile.start`, `_getAdjacentFile`)

`SDSFile.start` is `datetime.strptime(year + " " + day, "%Y %j")`, i.e. an
ordinal date (year, day-of-year).  `_getAdjacentFile(direction)` shifts it by
one day (`timedelta(days=±1)`) and renders the new year/day with `%Y`/`%j`.
Modelled faithfully to CPython/glibc: strptime's `%Y` matches exactly 4
decimal digits and `%j` 1-3 digits with value 1..366, the year must be at
least `MINYEAR = 1`, a day count past the end of the year spills into the
following year (CPython builds the date from an ordinal) and raises past
`MAXYEAR = 9999`; `timedelta` arithmetic likewise raises outside
`MINYEAR..MAXYEAR` (modelled as `none`). -/

structure OrdinalDate where
  year : Nat
  doy : Nat
deriving DecidableEq

/-- Gregorian leap-year rule. -/
def isLeapYear (y : Nat) : Bool :=
  (y % 4 == 0 && y % 100 != 0) || y % 400 == 0

def daysInYear (y : Nat) : Nat :=
  if isLeapYear y then 366 else 365

/-- Resolve a (year, raw day-of-year) pair as CPython's strptime does:
day counts past the end of the year spill into the following year. -/
def normalizeYearDoy (y d : Nat) : OrdinalDate :=
  if d ≤ daysInYear y then ⟨y, d⟩ else ⟨y + 1, d - daysInYear y⟩

/-- `datetime.strptime(ys + " " + ds, "%Y %j")`: `%Y` matches exactly 4
digits, `%j` 1-3 digits with value 1..366, the year must be within
`MINYEAR..MAXYEAR`, and the date built from (year, day-of-year) must not
pass `MAXYEAR = 9999`. -/
def strptimeYearDoy (ys ds : PyStr) : Option OrdinalDate :=
  match parseDigits? ys, parseDigits? ds with
  | some y, some d =>
    if ys.length = 4 ∧ ds.length ≤ 3 ∧ 1 ≤ y ∧ 1 ≤ d ∧ d ≤ 366 then
      let nd := normalizeYearDoy y d
      if nd.year ≤ 9999 then some nd else none
    else none
  | _, _ => none

/-- `date + timedelta(days=1)`: raises OverflowError past `MAXYEAR = 9999`
(modelled as `none`). -/
def OrdinalDate.addDay (d : OrdinalDate) : Option OrdinalDate :=
  if d.doy < daysInYear d.year then some ⟨d.year, d.doy + 1⟩
  else if d.year + 1 ≤ 9999 then some ⟨d.year + 1, 1⟩
  else none

/-- `date - timedelta(days=1)`: raises OverflowError below `MINYEAR = 1`
(modelled as `none`). -/
def OrdinalDate.subDay (d : OrdinalDate) : Option OrdinalDate :=
  if 1 < d.doy then some ⟨d.year, d.doy - 1⟩
  else if 1 ≤ d.year - 1 then some ⟨d.year - 1, daysInYear (d.year - 1)⟩
  else none

/-- `SDSFile._getAdjacentFile` (src/filestream.py lines 175-198) at its two
call sites `next` (direction 1) and `previous` (direction -1): shift `start`
by one day (exceptions from the calendar bounds propagate), render the new
year/day with `%Y`/`%j`, join the 7 fields and construct a new `SDSFile`
from the resulting filename. -/
def SDSFile.getAdjacentFile (f : SDSFile) (forward : Bool) : Option SDSFile :=
  (strptimeYearDoy f.year f.day).bind fun start =>
    (if forward then start.addDay else start.subDay).bind fun newDate =>
      (SDSFile.ofFilename (intercalateDot
        [f.network, f.station, f.location, f.channel, f.quality,
          fmtYear newDate.year, fmtDoy newDate.doy])).toOption

/-- `SDSFile.next`: `_getAdjacentFile(1)`. -/
def SDSFile.next (f : SDSFile) : Option SDSFile :=
  f.getAdjacentFile true

/-- `SDSFile.previous`: `_getAdjacentFile(-1)`. -/
def SDSFile.previous (f : SDSFile) : Option SDSFile :=
  f.getAdjacentFile false

/-! ### Digit round-trip lemmas -/

theorem digitChar_mem (d : Nat) :
    digitChar d ∈ ['0', '1', '2', '3', '4', '5', '6', '7', '8', '9'] := by
  unfold digitChar
  split <;> simp

theorem digitChar_ne_dot (d : Nat) : digitChar d ≠ '.' := by
  intro h
  have := digitChar_mem d
  rw [h] at this
  simp at this

theorem charToDigit_digitChar (d : Nat) (h : d < 10) :
    charToDigit? (digitChar d) = some d := by
  interval_cases d <;> decide

theorem toDigitsLE_lt_ten (fuel n : Nat) : ∀ d ∈ toDigitsLE fuel n, d < 10 := by
  induction fuel generalizing n with
  | zero =>
    intro d hd
    cases n <;> simp [toDigitsLE] at hd
  | succ m ih =>
    intro d hd
    cases n with
    | zero => simp [toDigitsLE] at hd
    | succ k =>
      rw [toDigitsLE] at hd
      rcases List.mem_cons.mp hd with h | h
      · rw [h]; exact Nat.mod_lt _ (by omega)
      · exact ih _ _ h

theorem ofDigitsLE_toDigitsLE (fuel n : Nat) (h : n ≤ fuel) :
    ofDigitsLE (toDigitsLE fuel n) = n := by
  induction fuel generalizing n with
  | zero =>
    interval_cases n
    rfl
  | succ m ih =>
    cases n with
    | zero => rfl
    | succ k =>
      rw [toDigitsLE, ofDigitsLE, ih ((k + 1) / 10) (by omega)]
      omega

theorem ofDigitsLE_replicate_zero (k : Nat) : ofDigitsLE (List.replicate k 0) = 0 := by
  induction k with
  | zero => rfl
  | succ j ih =>
    rw [List.replicate_succ]
    rw [show ofDigitsLE (0 :: List.replicate j 0) = 0 + 10 * ofDigitsLE (List.replicate j 0)
      from rfl]
    rw [ih]

theorem ofDigitsLE_append_zeros (l : List Nat) (k : Nat) :
    ofDigitsLE (l ++ List.replicate k 0) = ofDigitsLE l := by
  induction l with
  | nil =>
    rw [List.nil_append, ofDigitsLE_replicate_zero]
    rfl
  | cons d ds ih =>
    rw [List.cons_append]
    rw [show ofDigitsLE (d :: (ds ++ List.replicate k 0))
        = d + 10 * ofDigitsLE (ds ++ List.replicate k 0) from rfl]
    rw [ih]
    rfl

theorem charsToDigits_map_digitChar (ds : List Nat) (h : ∀ d ∈ ds, d < 10) :
    charsToDigits? (ds.map digitChar) = some ds := by
  induction ds with
  | nil => rfl
  | cons d rest ih =>
    rw [List.map_cons, charsToDigits?, charToDigit_digitChar d (h d (by simp)),
      ih (fun x hx => h x (by simp [hx]))]

theorem charsToDigits_replicate_zero (k : Nat) :
    charsToDigits? (List.replicate k '0') = some (List.replicate k 0) := by
  induction k with
  | zero => rfl
  | succ j ih =>
    rw [List.replicate_succ, charsToDigits?, ih]
    rfl

theorem charsToDigits_append (l1 l2 : PyStr) (d1 d2 : List Nat)
    (h1 : charsToDigits? l1 = some d1) (h2 : charsToDigits? l2 = some d2) :
    charsToDigits? (l1 ++ l2) = some (d1 ++ d2) := by
  induction l1 generalizing d1 with
  | nil =>
    rw [charsToDigits?] at h1
    obtain rfl : ([] : List Nat) = d1 := by simpa using h1
    rw [List.nil_append, List.nil_append]
    exact h2
  | cons c rest ih =>
    rw [charsToDigits?] at h1
    cases hc : charToDigit? c with
    | none => rw [hc] at h1; simp at h1
    | some v =>
      rw [hc] at h1
      cases hr : charsToDigits? rest with
      | none => rw [hr] at h1; simp at h1
      | some vs =>
        rw [hr] at h1
        obtain rfl : v :: vs = d1 := by simpa using h1
        rw [List.cons_append, charsToDigits?, hc, ih vs hr]
        rfl

/-- Every rendered numeral is a non-empty string of digit characters (with
digit values below 10) whose value reads back as the original number. -/
theorem natToChars_spec (n : Nat) :
    ∃ bd : List Nat, natToChars n = bd.map digitChar ∧ bd ≠ [] ∧
      (∀ d ∈ bd, d < 10) ∧ ofDigitsLE bd.reverse = n := by
  by_cases hn : n = 0
  · subst hn
    exact ⟨[0], rfl, by simp, by simp, rfl⟩
  · refine ⟨(toDigitsLE n n).reverse, ?_, ?_, ?_, ?_⟩
    · unfold natToChars
      rw [if_neg hn]
    · intro hnil
      have hzero : toDigitsLE n n = [] := by
        have := congrArg List.reverse hnil
        simpa using this
      have := ofDigitsLE_toDigitsLE n n le_rfl
      rw [hzero] at this
      exact hn this.symm
    · intro d hd
      exact toDigitsLE_lt_ten n n d (List.mem_reverse.mp hd)
    · rw [List.reverse_reverse]
      exact ofDigitsLE_toDigitsLE n n le_rfl

theorem parseDigits_padZero_natToChars (k n : Nat) :
    parseDigits? (padZero k (natToChars n)) = some n := by
  obtain ⟨bd, hmap, hne, hlt, hval⟩ := natToChars_spec n
  unfold parseDigits? padZero
  rw [hmap]
  have hdigits : charsToDigits?
      (List.replicate (k - (bd.map digitChar).length) '0' ++ bd.map digitChar)
      = some (List.replicate (k - (bd.map digitChar).length) 0 ++ bd) :=
    charsToDigits_append _ _ _ _ (charsToDigits_replicate_zero _)
      (charsToDigits_map_digitChar bd hlt)
  rw [hdigits]
  have hnonempty : (List.replicate (k - (bd.map digitChar).length) 0 ++ bd).isEmpty = false := by
    rw [List.isEmpty_eq_false]
    simp [hne]
  simp only [hnonempty, Bool.false_eq_true, if_false, Option.some.injEq]
  rw [List.reverse_append, List.reverse_replicate, ofDigitsLE_append_zeros, hval]

/-! ### Formatting and strptime lemmas -/

theorem daysInYear_pos (y : Nat) : 1 ≤ daysInYear y := by
  unfold daysInYear
  split <;> omega

theorem daysInYear_le (y : Nat) : daysInYear y ≤ 366 := by
  unfold daysInYear
  split <;> omega

theorem dot_not_mem_pad_natToChars (k n : Nat) : '.' ∉ padZero k (natToChars n) := by
  obtain ⟨bd, hmap, -, -, -⟩ := natToChars_spec n
  unfold padZero
  rw [hmap]
  intro hmem
  rcases List.mem_append.mp hmem with h | h
  · have := List.eq_of_mem_replicate h
    exact absurd this (by decide)
  · obtain ⟨d, -, hd⟩ := List.mem_map.mp h
    exact digitChar_ne_dot d hd

theorem dot_not_mem_natToChars (n : Nat) : '.' ∉ natToChars n := by
  obtain ⟨bd, hmap, -, -, -⟩ := natToChars_spec n
  rw [hmap]
  intro hmem
  obtain ⟨d, -, hd⟩ := List.mem_map.mp hmem
  exact digitChar_ne_dot d hd

theorem dot_not_mem_fmtYear (y : Nat) : '.' ∉ fmtYear y :=
  dot_not_mem_natToChars y

theorem dot_not_mem_fmtDoy (d : Nat) : '.' ∉ fmtDoy d :=
  dot_not_mem_pad_natToChars 3 d

/-! ### Decimal digit counts (for the fixed-width strptime matches) -/

theorem toDigitsLE_length_le (fuel n k : Nat) (hn : n ≤ fuel) (hk : n < 10 ^ k) :
    (toDigitsLE fuel n).length ≤ k := by
  induction fuel generalizing n k with
  | zero =>
    interval_cases n
    simp [toDigitsLE]
  | succ m ih =>
    cases n with
    | zero => simp [toDigitsLE]
    | succ j =>
      cases k with
      | zero =>
        exfalso
        simp at hk
      | succ q =>
        rw [toDigitsLE]
        simp only [List.length_cons]
        have hdiv1 : (j + 1) / 10 ≤ m := by
          have := Nat.div_lt_self (show 0 < j + 1 by omega) (show 1 < 10 by omega)
          omega
        have hdiv2 : (j + 1) / 10 < 10 ^ q := by
          rw [Nat.div_lt_iff_lt_mul (by omega)]
          calc j + 1 < 10 ^ (q + 1) := hk
            _ = 10 ^ q * 10 := by rw [pow_succ]
        have := ih ((j + 1) / 10) q hdiv1 hdiv2
        omega

theorem toDigitsLE_length_ge (fuel n k : Nat) (hn : n ≤ fuel) (hk : 10 ^ k ≤ n) :
    k + 1 ≤ (toDigitsLE fuel n).length := by
  induction fuel generalizing n k with
  | zero =>
    exfalso
    have := Nat.one_le_two_pow (n := k)
    have hpow : 1 ≤ 10 ^ k := Nat.one_le_pow k 10 (by omega)
    omega
  | succ m ih =>
    cases n with
    | zero =>
      exfalso
      have hpow : 1 ≤ 10 ^ k := Nat.one_le_pow k 10 (by omega)
      omega
    | succ j =>
      rw [toDigitsLE]
      simp only [List.length_cons]
      cases k with
      | zero => omega
      | succ q =>
        have hdiv1 : (j + 1) / 10 ≤ m := by
          have := Nat.div_lt_self (show 0 < j + 1 by omega) (show 1 < 10 by omega)
          omega
        have hdiv2 : 10 ^ q ≤ (j + 1) / 10 := by
          rw [Nat.le_div_iff_mul_le (by omega)]
          calc 10 ^ q * 10 = 10 ^ (q + 1) := (pow_succ 10 q).symm
            _ ≤ j + 1 := hk
        have := ih ((j + 1) / 10) q hdiv1 hdiv2
        omega

theorem natToChars_length_four (y : Nat) (h1 : 1000 ≤ y) (h2 : y ≤ 9999) :
    (natToChars y).length = 4 := by
  have hy0 : ¬ y = 0 := by omega
  unfold natToChars
  rw [if_neg hy0, List.length_map, List.length_reverse]
  have h104 : (10 : Nat) ^ 4 = 10000 := by norm_num
  have h103 : (10 : Nat) ^ 3 = 1000 := by norm_num
  have hle := toDigitsLE_length_le y y 4 le_rfl (by rw [h104]; omega)
  have hge := toDigitsLE_length_ge y y 3 le_rfl (by rw [h103]; omega)
  omega

theorem natToChars_length_le_three (d : Nat) (h : d ≤ 999) :
    (natToChars d).length ≤ 3 := by
  by_cases hd0 : d = 0
  · subst hd0
    decide
  · unfold natToChars
    rw [if_neg hd0, List.length_map, List.length_reverse]
    have h103 : (10 : Nat) ^ 3 = 1000 := by norm_num
    exact toDigitsLE_length_le d d 3 le_rfl (by rw [h103]; omega)

theorem fmtDoy_length_le_three (d : Nat) (h : d ≤ 999) : (fmtDoy d).length ≤ 3 := by
  unfold fmtDoy padZero
  rw [List.length_append, List.length_replicate]
  have := natToChars_length_le_three d h
  omega

theorem parseDigits_natToChars (n : Nat) : parseDigits? (natToChars n) = some n := by
  have h := parseDigits_padZero_natToChars 0 n
  rwa [padZero, Nat.zero_sub, List.replicate_zero, List.nil_append] at h

theorem strptimeYearDoy_fmt (y d : Nat) (hy1 : 1000 ≤ y) (hy2 : y ≤ 9999)
    (hd1 : 1 ≤ d) (hd2 : d ≤ daysInYear y) :
    strptimeYearDoy (fmtYear y) (fmtDoy d) = some ⟨y, d⟩ := by
  unfold strptimeYearDoy fmtYear fmtDoy
  rw [parseDigits_natToChars, parseDigits_padZero_natToChars]
  have hc1 : (natToChars y).length = 4 := natToChars_length_four y hy1 hy2
  have hc2 : (padZero 3 (natToChars d)).length ≤ 3 := by
    have hd999 : d ≤ 999 := le_trans hd2 (le_trans (daysInYear_le y) (by omega))
    exact fmtDoy_length_le_three d hd999
  show (if (natToChars y).length = 4 ∧ (padZero 3 (natToChars d)).length ≤ 3 ∧
        1 ≤ y ∧ 1 ≤ d ∧ d ≤ 366 then
      if (normalizeYearDoy y d).year ≤ 9999 then some (normalizeYearDoy y d) else none
    else none) = _
  rw [if_pos ⟨hc1, hc2, by omega, hd1, le_trans hd2 (daysInYear_le y)⟩]
  rw [show normalizeYearDoy y d = ⟨y, d⟩ from by unfold normalizeYearDoy; rw [if_pos hd2]]
  rw [if_pos (show (⟨y, d⟩ : OrdinalDate).year ≤ 9999 from hy2)]

/-- For a file whose year/day fields are rendered numerals of a valid
4-digit-year ordinal date whose following day is representable,
`_getAdjacentFile(1)` succeeds and yields the file with the date advanced
by one day and re-rendered. -/
theorem getAdjacentFile_fmt_next (net sta loc cha q : PyStr) (y d : Nat)
    (nd : OrdinalDate)
    (h1 : '.' ∉ net) (h2 : '.' ∉ sta) (h3 : '.' ∉ loc) (h4 : '.' ∉ cha) (h5 : '.' ∉ q)
    (hy1 : 1000 ≤ y) (hy2 : y ≤ 9999) (hd1 : 1 ≤ d) (hd2 : d ≤ daysInYear y)
    (hadd : OrdinalDate.addDay ⟨y, d⟩ = some nd) :
    SDSFile.getAdjacentFile ⟨net, sta, loc, cha, q, fmtYear y, fmtDoy d⟩ true
      = some ⟨net, sta, loc, cha, q, fmtYear nd.year, fmtDoy nd.doy⟩ := by
  unfold SDSFile.getAdjacentFile
  show (strptimeYearDoy (fmtYear y) (fmtDoy d)).bind _ = _
  rw [strptimeYearDoy_fmt y d hy1 hy2 hd1 hd2, Option.some_bind]
  show (OrdinalDate.addDay ⟨y, d⟩).bind _ = _
  rw [hadd, Option.some_bind]
  have hre := ofFilename_filename
    ⟨net, sta, loc, cha, q, fmtYear nd.year, fmtDoy nd.doy⟩
    h1 h2 h3 h4 h5 (dot_not_mem_fmtYear _) (dot_not_mem_fmtDoy _)
  rw [show (⟨net, sta, loc, cha, q, fmtYear nd.year, fmtDoy nd.doy⟩ : SDSFile).filename
    = intercalateDot [net, sta, loc, cha, q, fmtYear nd.year, fmtDoy nd.doy] from rfl] at hre
  rw [hre]
  rfl

/-- For a file whose year/day fields are rendered numerals of a valid
4-digit-year ordinal date whose preceding day is representable,
`_getAdjacentFile(-1)` succeeds and yields the file with the date moved
back by one day and re-rendered. -/
theorem getAdjacentFile_fmt_prev (net sta loc cha q : PyStr) (y d : Nat)
    (pd : OrdinalDate)
    (h1 : '.' ∉ net) (h2 : '.' ∉ sta) (h3 : '.' ∉ loc) (h4 : '.' ∉ cha) (h5 : '.' ∉ q)
    (hy1 : 1000 ≤ y) (hy2 : y ≤ 9999) (hd1 : 1 ≤ d) (hd2 : d ≤ daysInYear y)
    (hsub : OrdinalDate.subDay ⟨y, d⟩ = some pd) :
    SDSFile.getAdjacentFile ⟨net, sta, loc, cha, q, fmtYear y, fmtDoy d⟩ false
      = some ⟨net, sta, loc, cha, q, fmtYear pd.year, fmtDoy pd.doy⟩ := by
  unfold SDSFile.getAdjacentFile
  show (strptimeYearDoy (fmtYear y) (fmtDoy d)).bind _ = _
  rw [strptimeYearDoy_fmt y d hy1 hy2 hd1 hd2, Option.some_bind]
  show (OrdinalDate.subDay ⟨y, d⟩).bind _ = _
  rw [hsub, Option.some_bind]
  have hre := ofFilename_filename
    ⟨net, sta, loc, cha, q, fmtYear pd.year, fmtDoy pd.doy⟩
    h1 h2 h3 h4 h5 (dot_not_mem_fmtYear _) (dot_not_mem_fmtDoy _)
  rw [show (⟨net, sta, loc, cha, q, fmtYear pd.year, fmtDoy pd.doy⟩ : SDSFile).filename
    = intercalateDot [net, sta, loc, cha, q, fmtYear pd.year, fmtDoy pd.doy] from rfl] at hre
  rw [hre]
  rfl

/-! ### Calendar round trips (within the datetime year range) -/

theorem addDay_isSome (y d : Nat) (hd2 : d ≤ daysInYear y)
    (hnext : d < daysInYear y ∨ y < 9999) :
    ∃ nd, OrdinalDate.addDay ⟨y, d⟩ = some nd := by
  unfold OrdinalDate.addDay
  dsimp only
  by_cases hcase : d < daysInYear y
  · rw [if_pos hcase]
    exact ⟨_, rfl⟩
  · rw [if_neg hcase, if_pos (by omega)]
    exact ⟨_, rfl⟩

theorem subDay_isSome (y d : Nat) (hy1 : 1000 ≤ y) :
    ∃ pd, OrdinalDate.subDay ⟨y, d⟩ = some pd := by
  unfold OrdinalDate.subDay
  dsimp only
  by_cases hcase : 1 < d
  · rw [if_pos hcase]
    exact ⟨_, rfl⟩
  · rw [if_neg hcase, if_pos (by omega)]
    exact ⟨_, rfl⟩

theorem addDay_bounds (y d : Nat) (nd : OrdinalDate)
    (hy1 : 1000 ≤ y) (hy2 : y ≤ 9999) (hd1 : 1 ≤ d) (hd2 : d ≤ daysInYear y)
    (hadd : OrdinalDate.addDay ⟨y, d⟩ = some nd) :
    1000 ≤ nd.year ∧ nd.year ≤ 9999 ∧ 1 ≤ nd.doy ∧ nd.doy ≤ daysInYear nd.year := by
  unfold OrdinalDate.addDay at hadd
  dsimp only at hadd
  by_cases hcase : d < daysInYear y
  · rw [if_pos hcase] at hadd
    obtain rfl := Option.some.inj hadd
    exact ⟨hy1, hy2, by dsimp only; omega, by dsimp only; omega⟩
  · rw [if_neg hcase] at hadd
    by_cases hcap : y + 1 ≤ 9999
    · rw [if_pos hcap] at hadd
      obtain rfl := Option.some.inj hadd
      exact ⟨by dsimp only; omega, hcap, le_rfl, daysInYear_pos _⟩
    · rw [if_neg hcap] at hadd
      exact absurd hadd (by simp)

theorem subDay_bounds (y d : Nat) (pd : OrdinalDate)
    (hy1 : 1000 ≤ y) (hy2 : y ≤ 9999) (hd1 : 1 ≤ d) (hd2 : d ≤ daysInYear y)
    (hprev : 1 < d ∨ 1000 < y)
    (hsub : OrdinalDate.subDay ⟨y, d⟩ = some pd) :
    1000 ≤ pd.year ∧ pd.year ≤ 9999 ∧ 1 ≤ pd.doy ∧ pd.doy ≤ daysInYear pd.year := by
  unfold OrdinalDate.subDay at hsub
  dsimp only at hsub
  by_cases hcase : 1 < d
  · rw [if_pos hcase] at hsub
    obtain rfl := Option.some.inj hsub
    exact ⟨hy1, hy2, by dsimp only; omega, by dsimp only; omega⟩
  · rw [if_neg hcase] at hsub
    by_cases hmin : 1 ≤ y - 1
    · rw [if_pos hmin] at hsub
      obtain rfl := Option.some.inj hsub
      refine ⟨by dsimp only; omega, by dsimp only; omega, ?_, ?_⟩
      · exact daysInYear_pos _
      · exact le_rfl
    · rw [if_neg hmin] at hsub
      exact absurd hsub (by simp)

theorem subDay_addDay (y d : Nat) (nd : OrdinalDate)
    (hy : 1 ≤ y) (hd1 : 1 ≤ d) (hd2 : d ≤ daysInYear y)
    (hadd : OrdinalDate.addDay ⟨y, d⟩ = some nd) :
    nd.subDay = some ⟨y, d⟩ := by
  unfold OrdinalDate.addDay at hadd
  dsimp only at hadd
  by_cases hcase : d < daysInYear y
  · rw [if_pos hcase] at hadd
    obtain rfl := Option.some.inj hadd
    unfold OrdinalDate.subDay
    dsimp only
    rw [if_pos (by omega)]
    simp
  · rw [if_neg hcase] at hadd
    by_cases hcap : y + 1 ≤ 9999
    · rw [if_pos hcap] at hadd
      obtain rfl := Option.some.inj hadd
      unfold OrdinalDate.subDay
      dsimp only
      rw [if_neg (by omega), if_pos (by omega)]
      simp only [Nat.add_sub_cancel]
      have hde : d = daysInYear y := by omega
      rw [hde]
    · rw [if_neg hcap] at hadd
      exact absurd hadd (by simp)

theorem addDay_subDay (y d : Nat) (pd : OrdinalDate)
    (hy2 : y ≤ 9999) (hd1 : 1 ≤ d) (hd2 : d ≤ daysInYear y)
    (hsub : OrdinalDate.subDay ⟨y, d⟩ = some pd) :
    pd.addDay = some ⟨y, d⟩ := by
  unfold OrdinalDate.subDay at hsub
  dsimp only at hsub
  by_cases hcase : 1 < d
  · rw [if_pos hcase] at hsub
    obtain rfl := Option.some.inj hsub
    unfold OrdinalDate.addDay
    dsimp only
    rw [if_pos (by omega)]
    have hde : d - 1 + 1 = d := by omega
    rw [hde]
  · rw [if_neg hcase] at hsub
    by_cases hmin : 1 ≤ y - 1
    · rw [if_pos hmin] at hsub
      obtain rfl := Option.some.inj hsub
      unfold OrdinalDate.addDay
      dsimp only
      rw [if_neg (by omega), if_pos (by omega)]
      have hyy : y - 1 + 1 = y := by omega
      have hdd : d = 1 := by omega
      rw [hyy, hdd]
    · rw [if_neg hmin] at hsub
      exact absurd hsub (by simp)

/-- C5 counterexample for the claim as stated, at two valid identities.
At N.S..C.D.9999.365 (year 9999 is not leap, so day 365 is its last day;
within the claim's 4-digit-year domain) `next` must shift the date to year
10000, which Python's `datetime` (`MAXYEAR = 9999`) refuses, so
`Neighbor(Neighbor(I, next), previous)` fails instead of returning I.  At
N.S..C.D.1000.001, `previous` renders year 999 — which glibc's `%Y` leaves
unpadded as "999" — and the subsequent `next` fails because strptime's `%Y`
matches exactly 4 digits. -/
theorem C5_roundtrip_fails_at_calendar_bounds :
    ((SDSFile.next ⟨"N".data, "S".data, "".data, "C".data, "D".data,
        "9999".data, "365".data⟩).bind SDSFile.previous = none) ∧
    ((SDSFile.previous ⟨"N".data, "S".data, "".data, "C".data, "D".data,
        "1000".data, "001".data⟩).bind SDSFile.next = none) := by
  exact ⟨by decide, by decide⟩

/-- C5 amended: for every valid identity (dot-free stream codes, 4-digit
year, zero-padded 3-digit day-of-year with 1 ≤ day ≤ number of days of that
year, so day 366 occurs only in leap years), `previous` after `next`
reproduces the identity provided the following day stays within Python's
datetime year range (i.e. not day 365 of year 9999), and `next` after
`previous` reproduces it provided the preceding day stays within 4-digit
years (i.e. not day 1 of year 1000) — including across ordinary year
boundaries and leap years; identities compare by equality of all 7
fields. -/
theorem C5_neighbor_roundtrip_amended (net sta loc cha q : PyStr) (y d : Nat)
    (h1 : '.' ∉ net) (h2 : '.' ∉ sta) (h3 : '.' ∉ loc) (h4 : '.' ∉ cha) (h5 : '.' ∉ q)
    (hy1 : 1000 ≤ y) (hy2 : y ≤ 9999) (hd1 : 1 ≤ d) (hd2 : d ≤ daysInYear y) :
    ((d < daysInYear y ∨ y < 9999) →
      (SDSFile.next ⟨net, sta, loc, cha, q, fmtYear y, fmtDoy d⟩).bind SDSFile.previous
        = some ⟨net, sta, loc, cha, q, fmtYear y, fmtDoy d⟩) ∧
    ((1 < d ∨ 1000 < y) →
      (SDSFile.previous ⟨net, sta, loc, cha, q, fmtYear y, fmtDoy d⟩).bind SDSFile.next
        = some ⟨net, sta, loc, cha, q, fmtYear y, fmtDoy d⟩) := by
  constructor
  · intro hnext
    obtain ⟨nd, hadd⟩ := addDay_isSome y d hd2 hnext
    obtain ⟨hnd1, hnd2, hnd3, hnd4⟩ := addDay_bounds y d nd hy1 hy2 hd1 hd2 hadd
    rw [SDSFile.next,
      getAdjacentFile_fmt_next net sta loc cha q y d nd h1 h2 h3 h4 h5 hy1 hy2 hd1 hd2 hadd,
      Option.some_bind, SDSFile.previous]
    have hsub : OrdinalDate.subDay ⟨nd.year, nd.doy⟩ = some ⟨y, d⟩ := by
      rw [show (⟨nd.year, nd.doy⟩ : OrdinalDate) = nd from rfl]
      exact subDay_addDay y d nd (by omega) hd1 hd2 hadd
    rw [getAdjacentFile_fmt_prev net sta loc cha q nd.year nd.doy ⟨y, d⟩
      h1 h2 h3 h4 h5 hnd1 hnd2 hnd3 hnd4 hsub]
  · intro hprev
    obtain ⟨pd, hsub⟩ := subDay_isSome y d hy1
    obtain ⟨hpd1, hpd2, hpd3, hpd4⟩ := subDay_bounds y d pd hy1 hy2 hd1 hd2 hprev hsub
    rw [SDSFile.previous,
      getAdjacentFile_fmt_prev net sta loc cha q y d pd h1 h2 h3 h4 h5 hy1 hy2 hd1 hd2 hsub,
      Option.some_bind, SDSFile.next]
    have hadd : OrdinalDate.addDay ⟨pd.year, pd.doy⟩ = some ⟨y, d⟩ := by
      rw [show (⟨pd.year, pd.doy⟩ : OrdinalDate) = pd from rfl]
      exact addDay_subDay y d pd hy2 hd1 hd2 hsub
    rw [getAdjacentFile_fmt_next net sta loc cha q pd.year pd.doy ⟨y, d⟩
      h1 h2 h3 h4 h5 hpd1 hpd2 hpd3 hpd4 hadd]

/-- Witness for the amended C5 at GB.PGB1..HHN.D, year 2014, day 365 (a
non-leap year boundary away from the calendar bounds: day 365 rolls to day
1 of 2015 and back). -/
theorem C5_neighbor_roundtrip_amended_witness :
    ('.' ∉ "GB".data ∧ '.' ∉ "PGB1".data ∧ '.' ∉ "".data ∧ '.' ∉ "HHN".data ∧
      '.' ∉ "D".data ∧ 1000 ≤ 2014 ∧ 2014 ≤ 9999 ∧ 1 ≤ 365 ∧ 365 ≤ daysInYear 2014 ∧
      (365 < daysInYear 2014 ∨ 2014 < 9999) ∧ (1 < 365 ∨ 1000 < 2014)) ∧
    (((SDSFile.next ⟨"GB".data, "PGB1".data, "".data, "HHN".data, "D".data,
        fmtYear 2014, fmtDoy 365⟩).bind SDSFile.previous
      = some ⟨"GB".data, "PGB1".data, "".data, "HHN".data, "D".data,
          fmtYear 2014, fmtDoy 365⟩) ∧
    ((SDSFile.previous ⟨"GB".data, "PGB1".data, "".data, "HHN".data, "D".data,
        fmtYear 2014, fmtDoy 365⟩).bind SDSFile.next
      = some ⟨"GB".data, "PGB1".data, "".data, "HHN".data, "D".data,
          fmtYear 2014, fmtDoy 365⟩)) :=
  ⟨⟨by decide, by decide, by decide, by decide, by decide, by decide, by decide,
      by decide, by decide, by decide, by decide⟩,
    (C5_neighbor_roundtrip_amended "GB".data "PGB1".data "".data "HHN".data "D".data
      2014 365 (by decide) (by decide) (by decide) (by decide) (by decide) (by decide)
      (by decide) (by decide) (by decide)).1 (by decide),
    (C5_neighbor_roundtrip_amended "GB".data "PGB1".data "".data "HHN".data "D".data
      2014 365 (by decide) (by decide) (by decide) (by decide) (by decide) (by decide)
      (by decide) (by decide) (by decide)).2 (by decide)⟩

/-! ## Archive paths and a content filesystem model

Paths are modelled as lists of path components.  The filesystem is an
association list from paths to file entries (content bytes plus mtime);
`os.path.isfile` is membership, `open` + read is lookup (a missing entry is
the IOError case). -/

/-- A file on disk: its byte content and its modification time. -/
structure FSFile where
  content : Content
  mtime : Nat
deriving DecidableEq

/-- The filesystem seen through `open`/`os.path`: path to entry. -/
abbrev ContentFS := List (List PyStr × FSFile)

def fsLookup (fs : ContentFS) (p : List PyStr) : Option FSFile :=
  (fs.find? (fun e => decide (e.1 = p))).map (fun e => e.2)

/-- `os.path.isfile`. -/
def isfile (fs : ContentFS) (p : List PyStr) : Bool :=
  (fsLookup fs p).isSome

/-- `SDSFile.channelDirectory`: `channel + "." + quality`. -/
def SDSFile.channelDirectory (f : SDSFile) : PyStr :=
  f.channel ++ '.' :: f.quality

/-- `SDSFile.directory`: `os.path.join(ROOT, year, network, station,
channelDirectory)`, as path components. -/
def SDSFile.directory (root : PyStr) (f : SDSFile) : List PyStr :=
  [root, f.year, f.network, f.station, f.channelDirectory]

/-- `SDSFile.filepath` (the second, overriding property at lines 140-142):
`os.path.join(ROOT, self.directory, self.filename)`; `self.directory` is an
absolute path under the archive root, so `os.path.join` discards the leading
`ROOT` argument and the result is directory plus filename. -/
def SDSFile.filepath (root : PyStr) (f : SDSFile) : List PyStr :=
  f.directory root ++ [f.filename]

/-- `SDSFile.md5`: open the file (IOError when absent → `none`) and hash it
with `hashfn.md5`.  The source memoizes the digest per instance; memoization
does not change the value. -/
def SDSFile.md5 (root : PyStr) (fs : ContentFS) (f : SDSFile) : Option Digest :=
  (fsLookup fs (f.filepath root)).map fun e => Hashfn.md5 ⟨e.content, 0⟩

/-- `SDSFile.sha256`: open the file and hash it with `hashfn.sha256`. -/
def SDSFile.sha256fp (root : PyStr) (fs : ContentFS) (f : SDSFile) : Option Digest :=
  (fsLookup fs (f.filepath root)).map fun e => Hashfn.sha256 ⟨e.content, 0⟩

/-- `os.path.getsize`. -/
def SDSFile.size (root : PyStr) (fs : ContentFS) (f : SDSFile) : Option Nat :=
  (fsLookup fs (f.filepath root)).map fun e => e.content.length

/-- `os.path.getmtime`. -/
def SDSFile.modified (root : PyStr) (fs : ContentFS) (f : SDSFile) : Option Nat :=
  (fsLookup fs (f.filepath root)).map fun e => e.mtime

/-- `SDSFile.neighbours` (line 147): construct `previous` and `next`, keep
the three files whose paths exist, and re-parse each kept basename into a
new `SDSFile`.  Failures in the adjacent-file construction or the re-parse
are exceptions and propagate (`none`). -/
def SDSFile.neighbours (root : PyStr) (fs : ContentFS) (f : SDSFile) :
    Option (List SDSFile) :=
  (f.previous).bind fun p =>
    (f.next).bind fun n =>
      ([p, f, n].filter (fun g => isfile fs (g.filepath root))).mapM
        (fun g => (SDSFile.ofFilename g.filename).toOption)

/-- `SDSFile.filenames`: the filenames of the neighbours. -/
def SDSFile.filenames (root : PyStr) (fs : ContentFS) (f : SDSFile) :
    Option (List PyStr) :=
  (f.neighbours root fs).map (List.map SDSFile.filename)

/-! ## The fileObject collection (`src/mongo.py`, `src/wfcatalog.py`) -/

/-- A document of the `fileObject` collection, as built by
`WFMetadataCollector.CreateFileObject` (wfcatalog.py lines 151-172). -/
structure FileObjectDoc where
  collector : PyStr
  created : Nat
  filename : PyStr
  size : Nat
  hash : Digest
  modified : Nat
  date : OrdinalDate
  network : PyStr
  station : PyStr
  location : PyStr
  channel : PyStr
  pid : Option PyStr
deriving DecidableEq

/-- `WFMetadataCollector.CreateFileObject`: the file-object document for a
filestream.  Reads size/hash/mtime from the filesystem and the date from
`filestream.start`; any failure (missing file, bad date) is an exception. -/
def CreateFileObject (ver : PyStr) (now : Nat) (root : PyStr) (fs : ContentFS)
    (f : SDSFile) : Option FileObjectDoc :=
  (fsLookup fs (f.filepath root)).bind fun e =>
    (strptimeYearDoy f.year f.day).map fun date =>
      { collector := ver, created := now, filename := f.filename,
        size := e.content.length, hash := Hashfn.sha256 ⟨e.content, 0⟩,
        modified := e.mtime, date := date, network := f.network,
        station := f.station, location := f.location, channel := f.channel,
        pid := none }

/-- `WFCatalogDB.RemoveFileObject`: remove all documents with the given
filename; returns the remaining collection and the removed count (the
`["n"]` field of the pymongo remove result). -/
def RemoveFileObject (coll : List FileObjectDoc) (filename : PyStr) :
    List FileObjectDoc × Nat :=
  (coll.filter (fun d => ! decide (d.filename = filename)),
    (coll.filter (fun d => decide (d.filename = filename))).length)

/-- `WFCatalogDB.SaveFileObject`: pymongo `save` of a document without an
`_id` is an insert. -/
def SaveFileObject (coll : List FileObjectDoc) (doc : FileObjectDoc) :
    List FileObjectDoc :=
  coll ++ [doc]

/-- `WFMetadataCollector.StoreDigitalObject` (wfcatalog.py lines 132-148):
build the file object (exceptions propagate — there is no try/except here),
remove any existing documents for the filename, insert the new one. -/
def StoreDigitalObject (coll : List FileObjectDoc) (ver : PyStr) (now : Nat)
    (root : PyStr) (fs : ContentFS) (f : SDSFile) : Option (List FileObjectDoc) :=
  (CreateFileObject ver now root fs f).map fun fileObject =>
    SaveFileObject (RemoveFileObject coll f.filename).1 fileObject

/-- `WFCatalogDB.GetFileObjectByHash`: the documents whose `hash` field
equals the given digest. -/
def GetFileObjectByHash (coll : List FileObjectDoc) (fileHash : Digest) :
    List FileObjectDoc :=
  coll.filter (fun d => decide (d.hash = fileHash))

/-- `WFCatalogDB.HashExists`: `GetFileObjectByHash(h).count() != 0`. -/
def HashExists (coll : List FileObjectDoc) (h : Digest) : Bool :=
  decide ((GetFileObjectByHash coll h).length ≠ 0)

/-- The loop body of `WFCatalogDB.DependentFileChanged` over the parsed
filestreams: under `force`, add the neighbour filenames of every candidate;
otherwise add them exactly when `HashExists(filestream.md5)` is false.  Any
exception (adjacent-file construction, IOError from `md5`) propagates. -/
def DependentFileChangedLoop (coll : List FileObjectDoc) (root : PyStr)
    (fs : ContentFS) (force : Bool) :
    List SDSFile → Finset PyStr → Option (Finset PyStr)
  | [], updateSet => some updateSet
  | f :: rest, updateSet =>
    if force then
      (f.filenames root fs).bind fun ns =>
        DependentFileChangedLoop coll root fs force rest (updateSet ∪ ns.toFinset)
    else
      (f.md5 root fs).bind fun h =>
        if HashExists coll h then
          DependentFileChangedLoop coll root fs force rest updateSet
        else
          (f.filenames root fs).bind fun ns =>
            DependentFileChangedLoop coll root fs force rest (updateSet ∪ ns.toFinset)

/-- `WFCatalogDB.DependentFileChanged` (mongo.py lines 131-163): parse all
input filenames (`map(SDSFile, filenames)`, eager under Python 2), then run
the update-set loop starting from the empty set. -/
def DependentFileChanged (coll : List FileObjectDoc) (root : PyStr)
    (fs : ContentFS) (filenames : List PyStr) (force : Bool) :
    Option (Finset PyStr) :=
  (filenames.mapM (fun fn => (SDSFile.ofFilename fn).toOption)).bind fun files =>
    DependentFileChangedLoop coll root fs force files ∅

/-! ## Concrete archive fixture used by the change-detection claims -/

def exRoot : PyStr := "a".data

def exFile : SDSFile :=
  ⟨"N".data, "S".data, "".data, "C".data, "D".data, "2014".data, "295".data⟩

def exFilename : PyStr := "N.S..C.D.2014.295".data

def exFile296 : SDSFile :=
  ⟨"N".data, "S".data, "".data, "C".data, "D".data, "2014".data, "296".data⟩

/-- A filesystem holding exactly the file `N.S..C.D.2014.295` with content
`[0]`, at its archive path. -/
def exFS : ContentFS := [(SDSFile.filepath exRoot exFile, ⟨[0], 7⟩)]

/-- The fileObject collection after `StoreDigitalObject` has recorded the
digital object of `N.S..C.D.2014.295` into an empty collection. -/
def exStoredColl : List FileObjectDoc :=
  (StoreDigitalObject [] "2.0.0".data 0 exRoot exFS exFile).getD []

/-- C1: the fingerprint that `StoreDigitalObject` records for a file is its
sha256 digest (`CreateFileObject` stores `filestream.sha256` under `hash`),
but `DependentFileChanged` checks `HashExists(filestream.md5)` — an md5
digest, which can never equal any stored sha256 digest.  Consequently, for a
candidate whose digital object (fingerprint) is already recorded by the
store, `Expand({F}, force=False)` does NOT return the empty work set claimed:
the hash lookup misses and the candidate's neighbour window is scheduled
again. -/
theorem C1_md5_check_misses_sha256_store :
    StoreDigitalObject [] "2.0.0".data 0 exRoot exFS exFile = some exStoredColl ∧
    (∃ doc ∈ exStoredColl, doc.filename = exFilename ∧
      doc.hash = Digest.sha256hex [0]) ∧
    SDSFile.md5 exRoot exFS exFile = some (Digest.md5hex [0]) ∧
    HashExists exStoredColl (Digest.md5hex [0]) = false ∧
    DependentFileChanged exStoredColl exRoot exFS [exFilename] false
      = some {exFilename} ∧
    ({exFilename} : Finset PyStr) ≠ ∅ ∧
    DependentFileChanged exStoredColl exRoot exFS [exFilename] true
      = some {exFilename} := by
  refine ⟨by decide, by decide, by decide, by decide, by decide, by decide, by decide⟩

/-- C4 counterexample: a batch of two candidates where fingerprinting the
first fails with IOError (its file is absent) and the second is a changed
file that on its own would be scheduled.  The claim says the first is
skipped and the second still processed; in fact `DependentFileChanged` has
no exception handling around `filestream.md5`, so the whole call fails
(`none`) and no work set is produced — while the second candidate alone
would have produced a non-empty work set. -/
theorem C4_fingerprint_error_kills_batch :
    DependentFileChanged [] exRoot exFS ["N.S..C.D.2014.296".data, exFilename] false
      = none ∧
    DependentFileChanged [] exRoot exFS [exFilename] false = some {exFilename} := by
  exact ⟨by decide, by decide⟩

/-- C4 amended: an IOError while fingerprinting a candidate propagates out
of `DependentFileChanged` and aborts the whole batch — no work set is
produced and no candidate of the batch is processed (shown here for a batch
whose first candidate is unreadable; any other position aborts likewise
when reached). -/
theorem C4_amended_fingerprint_error_fatal (coll : List FileObjectDoc)
    (root : PyStr) (fs : ContentFS) (fname : PyStr) (rest : List PyStr)
    (f : SDSFile)
    (hparse : (SDSFile.ofFilename fname).toOption = some f)
    (hmissing : fsLookup fs (f.filepath root) = none) :
    DependentFileChanged coll root fs (fname :: rest) false = none := by
  rw [DependentFileChanged, List.mapM_cons, hparse]
  cases hrest : rest.mapM (fun fn => (SDSFile.ofFilename fn).toOption) with
  | none => simp [hrest]
  | some files =>
    show DependentFileChangedLoop coll root fs false (f :: files) ∅ = none
    rw [DependentFileChangedLoop]
    rw [if_neg (by decide)]
    rw [SDSFile.md5, hmissing]
    rfl

/-- Witness for the amended C4 at the concrete two-candidate batch. -/
theorem C4_amended_fingerprint_error_fatal_witness :
    ((SDSFile.ofFilename "N.S..C.D.2014.296".data).toOption = some exFile296 ∧
      fsLookup exFS (SDSFile.filepath exRoot exFile296) = none) ∧
    DependentFileChanged exStoredColl exRoot exFS
      ["N.S..C.D.2014.296".data, exFilename] false = none :=
  ⟨⟨by decide, by decide⟩,
    C4_amended_fingerprint_error_fatal exStoredColl exRoot exFS
      "N.S..C.D.2014.296".data [exFilename] exFile296 (by decide) (by decide)⟩

/-! ## The metrics and spectra collections (`src/wfcatalog.py`)

The scientific content of a metrics or spectra document comes from the
external ObsPy analysis (`MSEEDMetadata` / `PPSD`), which is the system's
external collaborator; those derived fields are abstracted as an opaque
`payload`.  What the repository's own code determines — and what the claim
is about — is the `filename` key: `CollectMetrics` stamps
`trace["filename"] = filestream.filename` (wfcatalog.py line 127) and
`GetDatabaseKeyMap` copies it into the document; `CollectPSD` stamps
`"filename": filestream.filename` on every spectra document (line 437). -/

structure MetricDoc (P : Type) where
  filename : PyStr
  payload : P
deriving DecidableEq

structure SpectraDoc (P : Type) where
  filename : PyStr
  payload : P
deriving DecidableEq

/-- `WFMetadataCollector.CollectMetrics`: run the external analysis (its
outcome is the `meta` argument: a payload, or the exception it raised) and
build the document carrying the filestream's filename. -/
def CollectMetrics (P : Type) (f : SDSFile) (meta : Except PyStr P) :
    Except PyStr (MetricDoc P) :=
  meta.map fun p => ⟨f.filename, p⟩

/-- `WFMetadataCollector.CollectPSD`: one spectra document per surviving
segment of the external PPSD computation, each carrying the filestream's
filename (segments whose byte packing fails are dropped inside CollectPSD,
so `segments` lists the surviving payloads). -/
def CollectPSD (P : Type) (f : SDSFile) (segments : Except PyStr (List P)) :
    Except PyStr (List (SpectraDoc P)) :=
  segments.map fun segs => segs.map fun s => ⟨f.filename, s⟩

/-- `WFCatalogDB.RemoveMetricObject`: remaining collection and removed
count. -/
def RemoveMetricObject (P : Type) (coll : List (MetricDoc P)) (filename : PyStr) :
    List (MetricDoc P) × Nat :=
  (coll.filter (fun d => ! decide (d.filename = filename)),
    (coll.filter (fun d => decide (d.filename = filename))).length)

/-- `WFCatalogDB.RemoveSpectraObject`: remaining collection and removed
count. -/
def RemoveSpectraObject (P : Type) (coll : List (SpectraDoc P)) (filename : PyStr) :
    List (SpectraDoc P) × Nat :=
  (coll.filter (fun d => ! decide (d.filename = filename)),
    (coll.filter (fun d => decide (d.filename = filename))).length)

/-- `WFCatalogDB.SaveMetricObject`: pymongo `save` without `_id` inserts. -/
def SaveMetricObject (P : Type) (coll : List (MetricDoc P)) (doc : MetricDoc P) :
    List (MetricDoc P) :=
  coll ++ [doc]

/-- `WFMetadataCollector.StoreMetricObject` (wfcatalog.py lines 88-102):
collect metrics (an exception is logged and leaves the store untouched),
remove existing documents for the filename, save the new document. -/
def StoreMetricObject (P : Type) (coll : List (MetricDoc P)) (f : SDSFile)
    (meta : Except PyStr P) : List (MetricDoc P) :=
  match CollectMetrics P f meta with
  | .error _ => coll
  | .ok metrics => SaveMetricObject P (RemoveMetricObject P coll f.filename).1 metrics

/-- `WFMetadataCollector.StoreSpectraObject` (wfcatalog.py lines 68-85):
collect spectra (an exception is logged and leaves the store untouched),
remove existing documents for the filename, save each new document. -/
def StoreSpectraObject (P : Type) (coll : List (SpectraDoc P)) (f : SDSFile)
    (segments : Except PyStr (List P)) : List (SpectraDoc P) :=
  match CollectPSD P f segments with
  | .error _ => coll
  | .ok spectra => (RemoveSpectraObject P coll f.filename).1 ++ spectra

/-! ### Replace-on-write lemmas -/

theorem filter_after_replace {α : Type} (p : α → Bool) (l new : List α)
    (hnew : ∀ x ∈ new, p x = true) :
    ((l.filter (fun x => ! p x) ++ new).filter p) = new := by
  rw [List.filter_append]
  have h1 : (l.filter (fun x => ! p x)).filter p = [] := by
    rw [List.filter_filter]
    apply List.filter_eq_nil_iff.mpr
    intro a ha
    cases hpa : p a <;> simp [hpa]
  rw [h1, List.nil_append, List.filter_eq_self.mpr hnew]

theorem filter_not_after_replace {α : Type} (p : α → Bool) (l new : List α)
    (hnew : ∀ x ∈ new, p x = true) :
    ((l.filter (fun x => ! p x) ++ new).filter (fun x => ! p x))
      = l.filter (fun x => ! p x) := by
  rw [List.filter_append]
  have h2 : new.filter (fun x => ! p x) = [] := by
    apply List.filter_eq_nil_iff.mpr
    intro a ha
    rw [hnew a ha]
    decide
  have h3 : (l.filter (fun x => ! p x)).filter (fun x => ! p x)
      = l.filter (fun x => ! p x) := by
    rw [List.filter_filter]
    apply List.filter_congr
    intro a ha
    cases p a <;> rfl
  rw [h2, h3, List.append_nil]

/-- C2: every result write is a clean replace keyed by filename.  For the
metrics and spectra collections: after a successful store, the documents
with the file's filename are exactly the newly inserted one(s), and
documents for other filenames are untouched.  For the fileObject
collection: `StoreDigitalObject` succeeds exactly when `CreateFileObject`
does, and then the collection holds exactly the new document under that
filename and the untouched documents of other filenames. -/
theorem C2_replace_on_write (P Q : Type)
    (collM : List (MetricDoc P)) (collS : List (SpectraDoc Q))
    (collF : List FileObjectDoc) (f : SDSFile) (p : P) (segs : List Q)
    (ver : PyStr) (now : Nat) (root : PyStr) (fs : ContentFS) :
    ((StoreMetricObject P collM f (.ok p)).filter
        (fun d => decide (d.filename = f.filename)) = [⟨f.filename, p⟩] ∧
      (StoreMetricObject P collM f (.ok p)).filter
        (fun d => ! decide (d.filename = f.filename))
        = collM.filter (fun d => ! decide (d.filename = f.filename))) ∧
    ((StoreSpectraObject Q collS f (.ok segs)).filter
        (fun d => decide (d.filename = f.filename))
        = segs.map (fun s => ⟨f.filename, s⟩) ∧
      (StoreSpectraObject Q collS f (.ok segs)).filter
        (fun d => ! decide (d.filename = f.filename))
        = collS.filter (fun d => ! decide (d.filename = f.filename))) ∧
    ((StoreDigitalObject collF ver now root fs f).map (fun coll' =>
        (coll'.filter (fun d => decide (d.filename = f.filename)),
          coll'.filter (fun d => ! decide (d.filename = f.filename))))
      = (CreateFileObject ver now root fs f).map (fun doc =>
          ([doc], collF.filter (fun d => ! decide (d.filename = f.filename))))) := by
  refine ⟨⟨?_, ?_⟩, ⟨?_, ?_⟩, ?_⟩
  · show ((RemoveMetricObject P collM f.filename).1
        ++ [(⟨f.filename, p⟩ : MetricDoc P)]).filter _ = _
    exact filter_after_replace _ collM [(⟨f.filename, p⟩ : MetricDoc P)] (by simp)
  · show ((RemoveMetricObject P collM f.filename).1
        ++ [(⟨f.filename, p⟩ : MetricDoc P)]).filter _ = _
    exact filter_not_after_replace _ collM [(⟨f.filename, p⟩ : MetricDoc P)] (by simp)
  · show ((RemoveSpectraObject Q collS f.filename).1
        ++ segs.map (fun s => (⟨f.filename, s⟩ : SpectraDoc Q))).filter _ = _
    apply filter_after_replace _ collS
    intro x hx
    obtain ⟨s, -, rfl⟩ := List.mem_map.mp hx
    simp
  · show ((RemoveSpectraObject Q collS f.filename).1
        ++ segs.map (fun s => (⟨f.filename, s⟩ : SpectraDoc Q))).filter _ = _
    apply filter_not_after_replace _ collS
    intro x hx
    obtain ⟨s, -, rfl⟩ := List.mem_map.mp hx
    simp
  · rw [show StoreDigitalObject collF ver now root fs f
        = (CreateFileObject ver now root fs f).map
            (fun doc => SaveFileObject (RemoveFileObject collF f.filename).1 doc)
      from rfl]
    rw [show CreateFileObject ver now root fs f
        = (fsLookup fs (f.filepath root)).bind
            (fun e2 => (strptimeYearDoy f.year f.day).map fun date2 =>
              FileObjectDoc.mk ver now f.filename e2.content.length
                (Hashfn.sha256 ⟨e2.content, 0⟩) e2.mtime date2 f.network
                f.station f.location f.channel none)
      from rfl]
    cases hl : fsLookup fs (f.filepath root) with
    | none => rfl
    | some e =>
      rw [Option.some_bind]
      cases hs : strptimeYearDoy f.year f.day with
      | none => rfl
      | some date =>
        simp only [Option.map_map, Option.map_some']
        show some _ = some _
        rw [Option.some.injEq, Prod.mk.injEq]
        constructor
        · show ((RemoveFileObject collF f.filename).1
              ++ [FileObjectDoc.mk ver now f.filename e.content.length
                (Hashfn.sha256 ⟨e.content, 0⟩) e.mtime date f.network
                f.station f.location f.channel none]).filter _ = _
          exact filter_after_replace _ collF _ (by simp)
        · show ((RemoveFileObject collF f.filename).1
              ++ [FileObjectDoc.mk ver now f.filename e.content.length
                (Hashfn.sha256 ⟨e.content, 0⟩) e.mtime date f.network
                f.station f.location f.channel none]).filter _ = _
          exact filter_not_after_replace _ collF _ (by simp)

/-! ## SDSFileFinder (`src/filestream.py`)

The finder walks directories with `os.walk`, modelled by a `FinderFS`: the
set of existing directories plus, for each walkable root, the per-directory
batches of file names that the walk yields (`os.walk` of a missing
directory yields nothing and raises no error).  Archive existence checks
(`os.path.isfile(filestream.filepath)`) go through the same `ContentFS`
model used above. -/

structure FinderFS where
  dirs : List (List PyStr)
  walkFiles : List (List PyStr × List (List PyStr))
deriving DecidableEq

/-- `os.walk(d)`: the per-directory file-name batches when `d` exists,
nothing when it does not. -/
def walkBatches (fsys : FinderFS) (d : List PyStr) : List (List PyStr) :=
  if fsys.dirs.contains d then
    ((fsys.walkFiles.find? (fun e => decide (e.1 = d))).map (fun e => e.2)).getD []
  else []

/-- The inner loop of `GetFilesFromDirectory` over one walked directory's
`files` list (filestream.py lines 270-273), with Python's index-based list
iteration.  The body parses the name (an exception propagates), and when
the parsed file exists in the archive executes `files.append(file)` — it
appends to the list being iterated over, not to the enclosing accumulator
`filestreams`.  Returns the final list if the iteration ever finishes and
`.ok none` when the fuel runs out; once one element is re-appended the
index never catches up with the length, so no finite fuel suffices. -/
def dirWalkLoop (root : PyStr) (archive : ContentFS) :
    Nat → List PyStr → Nat → Except PyStr (Option (List PyStr))
  | 0, files, i => if i < files.length then .ok none else .ok (some files)
  | fuel + 1, files, i =>
    if h : i < files.length then
      match SDSFile.ofFilename (files.get ⟨i, h⟩) with
      | .error e => .error e
      | .ok filestream =>
        if isfile archive (filestream.filepath root) then
          dirWalkLoop root archive fuel (files ++ [files.get ⟨i, h⟩]) (i + 1)
        else
          dirWalkLoop root archive fuel files (i + 1)
    else .ok (some files)

/-- The outer loop of `GetFilesFromDirectory` over the walk's batches.  The
accumulator `filestreams` is initialised empty and never appended to, so a
completed walk returns the empty list. -/
def dirBatchesLoop (root : PyStr) (archive : ContentFS) (fuel : Nat) :
    List (List PyStr) → Except PyStr (Option (List PyStr))
  | [] => .ok (some [])
  | batch :: rest =>
    match dirWalkLoop root archive fuel batch 0 with
    | .error e => .error e
    | .ok none => .ok none
    | .ok (some _) => dirBatchesLoop root archive fuel rest

/-- `SDSFileFinder.GetFilesFromDirectory` (filestream.py lines 255-277):
raise when the input directory does not exist, then walk it running the
(buggy) collection loop; `.ok none` marks a walk that never terminates. -/
def GetFilesFromDirectory (root : PyStr) (archive : ContentFS) (fsys : FinderFS)
    (fuel : Nat) (directory : List PyStr) : Except PyStr (Option (List PyStr)) :=
  if ¬ fsys.dirs.contains directory then
    .error "Input directory does not exist on the file system".data
  else
    dirBatchesLoop root archive fuel (walkBatches fsys directory)

/-- The per-file body of `GetFilesFromDate` (filestream.py lines 321-325):
parse the name (exceptions propagate) and keep the file name when its day
matches and the file exists in the archive; this loop appends to
`filestreams` correctly. -/
def dateFilesLoop (root : PyStr) (archive : ContentFS) (jday : PyStr) :
    List PyStr → Except PyStr (List PyStr)
  | [] => .ok []
  | file :: rest =>
    match SDSFile.ofFilename file with
    | .error e => .error e
    | .ok filestream =>
      (dateFilesLoop root archive jday rest).map fun others =>
        if filestream.day = jday ∧ isfile archive (filestream.filepath root) then
          file :: others
        else others

def dateBatchesLoop (root : PyStr) (archive : ContentFS) (jday : PyStr) :
    List (List PyStr) → Except PyStr (List PyStr)
  | [] => .ok []
  | batch :: rest =>
    (dateFilesLoop root archive jday batch).bind fun first =>
      (dateBatchesLoop root archive jday rest).map fun others => first ++ others

/-- `SDSFileFinder.GetFilesFromDate` (filestream.py lines 305-329): walk the
archive's year directory — with no existence check: a missing year
directory walks to nothing — and collect the file names of the given
day of year that exist in the archive. -/
def GetFilesFromDate (root : PyStr) (archive : ContentFS) (fsys : FinderFS)
    (date : OrdinalDate) : Except PyStr (List PyStr) :=
  let jday := fmtDoy date.doy
  let year := fmtYear date.year
  let directory := [root, year]
  dateBatchesLoop root archive jday (walkBatches fsys directory)

/-! ## Selection-mode dispatch (`SDSFileFinder.FindFiles`, lines 211-252) -/

/-- The six selection inputs of `FindFiles` (each `None` when not
supplied); payload values are the raw command-line strings. -/
structure FinderArgs where
  date : Option PyStr
  file : Option PyStr
  dir : Option PyStr
  list : Option PyStr
  past : Option PyStr
  glob : Option PyStr
deriving DecidableEq

inductive SelectionMode where
  | dir | list | file | date | past | glob
deriving DecidableEq

/-- The two fatal selection errors of `FindFiles`: the source raises
`Exception("Multiple file inputs options were passed; aborting.")` and
`Exception("No input was given.")`. -/
inductive SelectionError where
  | ambiguous
  | noSelection
deriving DecidableEq

/-- Number of selection inputs supplied. -/
def FinderArgs.suppliedCount (a : FinderArgs) : Nat :=
  [a.date, a.file, a.dir, a.list, a.past, a.glob].countP (fun o => o.isSome)

/-- The mode-dispatch prefix of `SDSFileFinder.FindFiles`: raise when more
than one of the six inputs is given (`inputOptions.count(None) <
len(inputOptions) - 1`), otherwise dispatch in source order
dir/list/file/date/past/glob, and raise when none is given. -/
def FindFilesSelect (a : FinderArgs) : Except SelectionError SelectionMode :=
  let inputOptions := [a.date, a.file, a.dir, a.list, a.past, a.glob]
  if inputOptions.countP (fun o => o.isNone) < inputOptions.length - 1 then
    .error .ambiguous
  else if a.dir.isSome then .ok .dir
  else if a.list.isSome then .ok .list
  else if a.file.isSome then .ok .file
  else if a.date.isSome then .ok .date
  else if a.past.isSome then .ok .past
  else if a.glob.isSome then .ok .glob
  else .error .noSelection

/-! ## The filter chain (`SDSFileFinder.FilterFiles`, lines 411-425) -/

/-- `SDSFileFinder.FilterFiles`: scan the white (allow) filters in order;
at the first one matching the filename, scan the black (deny) filters and
reject if any matches, else accept; a filename matching no white filter is
rejected.  `fnmatchFn` stands for `fnmatch.fnmatch`. -/
def FilterFiles (fnmatchFn : PyStr → PyStr → Bool)
    (whiteFilters blackFilters : List PyStr) (filename : PyStr) : Bool :=
  match whiteFilters with
  | [] => false
  | w :: ws =>
    if fnmatchFn filename w then
      if blackFilters.any (fun b => fnmatchFn filename b) then false else true
    else FilterFiles fnmatchFn ws blackFilters filename

/-- The filter application at the end of `FindFiles` (lines 248-250):
`filter(self.FilterFiles, filestreams)` when filtering is enabled. -/
def FindFilesApplyFilter (enabled : Bool) (fnmatchFn : PyStr → PyStr → Bool)
    (whiteFilters blackFilters : List PyStr) (filestreams : List PyStr) :
    List PyStr :=
  if enabled then filestreams.filter (FilterFiles fnmatchFn whiteFilters blackFilters)
  else filestreams

/-! ### C3: the directory scan loop -/

/-- When every element of the (non-exhausted) `files` list parses to a file
that exists in the archive, the inner loop re-appends each visited element,
the index never reaches the length, and no amount of fuel completes the
iteration. -/
theorem dirWalkLoop_never_terminates (root : PyStr) (archive : ContentFS) :
    ∀ fuel files i,
      (∀ x ∈ files, ∃ g, SDSFile.ofFilename x = .ok g ∧
        isfile archive (g.filepath root) = true) →
      i < files.length →
      dirWalkLoop root archive fuel files i = .ok none := by
  intro fuel
  induction fuel with
  | zero =>
    intro files i hall hi
    rw [dirWalkLoop, if_pos hi]
  | succ n ih =>
    intro files i hall hi
    rw [dirWalkLoop, dif_pos hi]
    obtain ⟨g, hg, hgfile⟩ := hall (files.get ⟨i, hi⟩) (files.get_mem i hi)
    rw [hg]
    show (if isfile archive (g.filepath root) = true then
        dirWalkLoop root archive n (files ++ [files.get ⟨i, hi⟩]) (i + 1)
      else dirWalkLoop root archive n files (i + 1)) = .ok none
    rw [if_pos hgfile]
    apply ih
    · intro x hx
      rcases List.mem_append.mp hx with h | h
      · exact hall x h
      · have hxe : x = files.get ⟨i, hi⟩ := by simpa using h
        rw [hxe]
        exact hall _ (files.get_mem i hi)
    · rw [List.length_append]
      simp only [List.length_singleton]
      omega

def exDir : List PyStr := ["d".data]

/-- A walkable input directory containing the single file
`N.S..C.D.2014.295`. -/
def exFinder : FinderFS := ⟨[exDir], [(exDir, [[exFilename]])]⟩

/-- C3: directory-mode selection does not work as claimed.  When the
directory contains a file that exists in the archive, the loop body's
`files.append(file)` (appending to the very list being iterated, instead of
to the `filestreams` accumulator) makes the scan non-terminating: no finite
fuel completes it.  And when the walk does terminate (here: the file does
not exist in the archive), the returned `filestreams` accumulator — which
is never appended to — is empty. -/
theorem C3_directory_scan_diverges :
    (∀ fuel, GetFilesFromDirectory exRoot exFS exFinder fuel exDir = .ok none) ∧
    GetFilesFromDirectory exRoot [] exFinder 3 exDir = .ok (some []) := by
  constructor
  · intro fuel
    rw [GetFilesFromDirectory, if_neg (by decide)]
    rw [show walkBatches exFinder exDir = [[exFilename]] from by decide]
    rw [dirBatchesLoop]
    rw [dirWalkLoop_never_terminates exRoot exFS fuel [exFilename] 0 ?hall (by decide)]
    case hall =>
      intro x hx
      have hxe : x = exFilename := by simpa using hx
      rw [hxe]
      exact ⟨exFile, by decide, by decide⟩
  · decide

/-! ### C9: missing selection targets -/

/-- C9 amended: directory-mode fails with the not-found error when the
input directory does not exist, but date-mode performs no such check — a
missing archive year directory walks to nothing and the scan returns a
successful empty result rather than failing. -/
theorem C9_amended_notfound :
    (∀ (root : PyStr) (archive : ContentFS) (fsys : FinderFS) (fuel : Nat)
        (d : List PyStr), fsys.dirs.contains d = false →
      GetFilesFromDirectory root archive fsys fuel d
        = .error "Input directory does not exist on the file system".data) ∧
    (∀ (root : PyStr) (archive : ContentFS) (fsys : FinderFS) (date : OrdinalDate),
        fsys.dirs.contains [root, fmtYear date.year] = false →
      GetFilesFromDate root archive fsys date = .ok []) := by
  constructor
  · intro root archive fsys fuel d h
    rw [GetFilesFromDirectory, if_pos (by rw [h]; decide)]
  · intro root archive fsys date h
    rw [GetFilesFromDate]
    show dateBatchesLoop root archive (fmtDoy date.doy)
        (walkBatches fsys [root, fmtYear date.year]) = .ok []
    rw [walkBatches, if_neg (by rw [h]; decide)]
    rfl

/-- C9 counterexample for the claim as stated: with no directories at all
(the archive year directory for 2014 does not exist), date-mode selection
returns a successful empty result — it does not fail with a not-found
error. -/
theorem C9_date_mode_no_notfound :
    GetFilesFromDate "a".data [] ⟨[], []⟩ ⟨2014, 295⟩ = .ok [] := by
  decide

/-- Witness for the amended C9 at concrete inputs. -/
theorem C9_amended_notfound_witness :
    ((⟨[], []⟩ : FinderFS).dirs.contains ["x".data] = false ∧
      (⟨[], []⟩ : FinderFS).dirs.contains ["a".data, fmtYear 2014] = false) ∧
    GetFilesFromDirectory "a".data [] ⟨[], []⟩ 0 ["x".data]
      = .error "Input directory does not exist on the file system".data ∧
    GetFilesFromDate "a".data [] ⟨[], []⟩ ⟨2014, 295⟩ = .ok [] :=
  ⟨⟨by decide, by decide⟩,
    C9_amended_notfound.1 "a".data [] ⟨[], []⟩ 0 ["x".data] (by decide),
    C9_amended_notfound.2 "a".data [] ⟨[], []⟩ ⟨2014, 295⟩ (by decide)⟩

/-! ### C8: exclusive selection modes -/

/-- C8: `FindFiles` raises the multiple-inputs error exactly when more than
one of the six selection inputs is supplied, raises the no-input error
exactly when none is supplied, and dispatches to exactly one mode (raising
neither error) when exactly one is supplied. -/
theorem C8_selection_mode_errors (a : FinderArgs) :
    (1 < a.suppliedCount ↔ FindFilesSelect a = .error .ambiguous) ∧
    (a.suppliedCount = 0 ↔ FindFilesSelect a = .error .noSelection) ∧
    (a.suppliedCount = 1 ↔ ∃ mo, FindFilesSelect a = .ok mo) := by
  obtain ⟨d, f, di, l, pa, g⟩ := a
  cases d <;> cases f <;> cases di <;> cases l <;> cases pa <;> cases g <;>
    simp [FinderArgs.suppliedCount, FindFilesSelect]

/-! ### C7: the allow/deny filter chain -/

/-- C7: with filtering enabled, a located filename passes the filter chain
iff it matches at least one allow (white) pattern and matches no deny
(black) pattern; filenames matching no allow pattern are dropped.  Stated
both for the chain predicate itself and for membership in the filtered
`FindFiles` result. -/
theorem C7_filter_chain (m : PyStr → PyStr → Bool)
    (white black : List PyStr) (fn : PyStr) :
    (FilterFiles m white black fn = true ↔
      ((∃ w ∈ white, m fn w = true) ∧ ∀ b ∈ black, m fn b = false)) ∧
    (∀ lst : List PyStr, fn ∈ FindFilesApplyFilter true m white black lst ↔
      (fn ∈ lst ∧ (∃ w ∈ white, m fn w = true) ∧ ∀ b ∈ black, m fn b = false)) := by
  have hmain : FilterFiles m white black fn = true ↔
      ((∃ w ∈ white, m fn w = true) ∧ ∀ b ∈ black, m fn b = false) := by
    induction white with
    | nil => simp [FilterFiles]
    | cons w ws ih =>
      rw [FilterFiles]
      by_cases hw : m fn w = true
      · rw [if_pos hw]
        by_cases hb : black.any (fun b => m fn b) = true
        · rw [if_pos hb]
          obtain ⟨b, hbmem, hbm⟩ := List.any_eq_true.mp hb
          constructor
          · intro habs
            exact absurd habs (by decide)
          · rintro ⟨-, hall⟩
            have hfalse := hall b hbmem
            rw [hfalse] at hbm
            exact absurd hbm (by decide)
        · rw [if_neg hb]
          have hall : ∀ b ∈ black, m fn b = false := by
            intro b hbmem
            rw [List.any_eq_true] at hb
            push_neg at hb
            have := hb b hbmem
            cases hmb : m fn b with
            | true => exact absurd hmb this
            | false => rfl
          constructor
          · intro _
            exact ⟨⟨w, by simp, hw⟩, hall⟩
          · intro _
            rfl
      · rw [if_neg hw, ih]
        constructor
        · rintro ⟨⟨w', hw'mem, hw'⟩, hall⟩
          exact ⟨⟨w', by simp [hw'mem], hw'⟩, hall⟩
        · rintro ⟨⟨w', hw'mem, hw'⟩, hall⟩
          rcases List.mem_cons.mp hw'mem with rfl | hmem
          · exact absurd hw' hw
          · exact ⟨⟨w', hmem, hw'⟩, hall⟩
  refine ⟨hmain, ?_⟩
  intro lst
  rw [FindFilesApplyFilter, if_pos rfl, List.mem_filter, hmain]
